import Mathlib

/-!
Verification of the Visual Product Matcher frontend against its
natural-language specification.

The development shallowly embeds the TypeScript/React sources:

* `FilterPanel` (filter state controller): filter state record, price-bound
  input handlers, colour/tag toggles, and the display normalisation of the
  price interval.
* `services/api.ts` (HTTP client): error-message construction of
  `apiRequest` and `uploadAndSearch`, `buildSearchForm`, `getProduct`
  path construction with `encodeURIComponent`, abort-signal behaviour.
* `App.tsx` (root orchestrator): `toApiFilters`, `uid`, `pushToast` with its
  3200 ms expiry timer, and the search-completion handler.
* `ImageUpload.tsx`: preview object-URL lifecycle (creation, 6-item cap,
  effect-cleanup revocation).

JavaScript numbers are modelled as exact rationals (`ℚ`), with `Option ℚ`
where `NaN` matters (`none` = NaN).  Machine floating-point rounding is
irrelevant to every claim treated here.
-/

namespace VPM

/-! ## FilterPanel model (frontend `FilterPanel`, file part_003)

`FilterState` mirrors the exported `FilterState` type: query text, optional
category, price pair `[min, max]`, colour list, in-stock flag, detected-tag
list and sort key. -/

inductive SortKey where
  | relevance
  | price_asc
  | price_desc
  | newest
  deriving DecidableEq

structure FilterState where
  query : String
  category : Option String
  price : ℚ × ℚ
  colors : List String
  inStock : Bool
  detectedTags : List String
  sort : SortKey
  deriving DecidableEq

/-- The `DEFAULTS` constant of the filter panel. -/
def DEFAULTS : FilterState :=
  { query := ""
    category := none
    price := (0, 1000)
    colors := []
    inStock := false
    detectedTags := []
    sort := .relevance }

/-- The panel's displayed price range:
`useMemo(() => [Math.min(min, max), Math.max(min, max)], [min, max])`.
This value feeds only the range label; the emitted object is the raw state. -/
def minMaxDisplay (s : FilterState) : ℚ × ℚ :=
  (min s.price.1 s.price.2, max s.price.1 s.price.2)

/-- The change callback `useEffect(() => onChange(state), [state])` emits the
raw local state object, unmodified. -/
def emittedFilters (s : FilterState) : FilterState := s

/-- A price-bound edit: the numeric value produced by one of the two
number-input `onChange` handlers (the string-to-number coercion itself is
modelled separately by `priceInputNumber`). -/
inductive PriceEdit where
  | setMin (v : ℚ)
  | setMax (v : ℚ)

/-- The two handlers
`setState(s => ({ ...s, price: [v, s.price[1]] }))` and
`setState(s => ({ ...s, price: [s.price[0], v] }))`. -/
def applyPriceEdit (s : FilterState) : PriceEdit → FilterState
  | .setMin v => { s with price := (v, s.price.2) }
  | .setMax v => { s with price := (s.price.1, v) }

def applyPriceEdits (s : FilterState) (es : List PriceEdit) : FilterState :=
  es.foldl applyPriceEdit s

/-- The shared toggle shape of `toggleColor` / `toggleTag`:
`xs.includes(v) ? xs.filter(x => x !== v) : [...xs, v]`. -/
def toggleValue (l : List String) (v : String) : List String :=
  if v ∈ l then l.filter (fun x => x != v) else l ++ [v]

/-- Handler `toggleColor` of the filter panel. -/
def toggleColor (s : FilterState) (hex : String) : FilterState :=
  { s with colors := toggleValue s.colors hex }

/-- Handler `toggleTag` of the filter panel. -/
def toggleTag (s : FilterState) (t : String) : FilterState :=
  { s with detectedTags := toggleValue s.detectedTags t }

/-! ## String-to-number coercion of the price inputs

The handlers read `Number(e.target.value || 0)` from an
`<input type="number">`.  Per the HTML contract of a number input, its
`value` IDL attribute is either `""` or a string matching the
valid-floating-point-number grammar (`-? digits (. digits)? ([eE][+-]? digits)?`);
anything else the user types is sanitised to `""` before the handler sees it.
`parseFP` implements JavaScript `Number()` on exactly that grammar
(`none` = NaN for strings outside it, which a number input never delivers). -/

def digitsVal (l : List Char) : ℕ :=
  l.foldl (fun a c => 10 * a + (c.toNat - 48)) 0

/-- Fractional part after the decimal point, if present. -/
def parseFrac : List Char → Option (ℚ × List Char)
  | '.' :: rest =>
    let fd := rest.takeWhile Char.isDigit
    if fd.isEmpty then none
    else some ((digitsVal fd : ℚ) / (10 : ℚ) ^ fd.length, rest.dropWhile Char.isDigit)
  | cs => some (0, cs)

/-- Optional exponent, which must consume the rest of the string. -/
def parseExpTail : List Char → Option ℤ
  | [] => some 0
  | c :: rest =>
    if c = 'e' ∨ c = 'E' then
      let sd : ℤ × List Char :=
        match rest with
        | '-' :: r => (-1, r)
        | '+' :: r => (1, r)
        | _ => (1, rest)
      if !sd.2.isEmpty && sd.2.all Char.isDigit then
        some (sd.1 * (digitsVal sd.2 : ℤ))
      else none
    else none

def parseFPChars (cs0 : List Char) : Option ℚ :=
  let body : List Char → Option ℚ := fun cs =>
    let ids := cs.takeWhile Char.isDigit
    let rest := cs.dropWhile Char.isDigit
    if ids.isEmpty then none
    else
      (parseFrac rest).bind fun fr =>
        (parseExpTail fr.2).map fun ex =>
          ((digitsVal ids : ℚ) + fr.1) * (10 : ℚ) ^ ex
  match cs0 with
  | '-' :: rest => (body rest).map Neg.neg
  | _ => body cs0

/-- JavaScript `Number()` restricted to the inputs a number input can
deliver; `none` stands for NaN. -/
def parseFP (s : String) : Option ℚ :=
  parseFPChars s.data

/-- The `value` a number input delivers to `onChange` for the typed text:
the text itself when it is a valid floating-point number, else `""`. -/
def numberInputValue (typed : String) : String :=
  if (parseFP typed).isSome then typed else ""

/-- The handler expression `Number(e.target.value || 0)`:
the empty string is falsy, so it is replaced by `0` before coercion. -/
def priceInputNumber (delivered : String) : Option ℚ :=
  if delivered = "" then some 0 else parseFP delivered

/-! ## HTTP client model (`services/api.ts`)

An HTTP response is abstracted by its 2xx flag, status, status text, body
text (`""` also covers a failed `res.text()`), and the result of attempting
to parse the body as JSON, of which only the `message` and `detail` fields
matter to the error policy (`none` = field absent or not a string). -/

structure JsonPayload where
  message : Option String
  detail : Option String
  deriving DecidableEq

structure HttpResponse where
  ok : Bool
  status : ℕ
  statusText : String
  bodyText : String
  json : Option JsonPayload
  deriving DecidableEq

/-- JavaScript truthiness on an optional string: `""`, `null` and
`undefined` are falsy. -/
def truthyStr : Option String → Option String
  | some s => if s = "" then none else some s
  | none => none

/-- The error message `apiRequest` throws on a non-2xx response:
`payload?.message || payload?.detail || ` the status fallback. -/
def apiErrorMessage (r : HttpResponse) : String :=
  match truthyStr (r.json.bind JsonPayload.message) with
  | some m => m
  | none =>
    match truthyStr (r.json.bind JsonPayload.detail) with
    | some d => d
    | none => "API error " ++ toString r.status ++ " " ++ r.statusText

/-- Function `apiRequest`: parse JSON either way; throw `Error(message)` on non-2xx,
else return the parsed payload. -/
def apiRequest (r : HttpResponse) : Except String (Option JsonPayload) :=
  if r.ok then .ok r.json else .error (apiErrorMessage r)

/-- Written from the spec sentence for claim C1: parse the body as JSON and
extract a human-readable message field (`message` or `detail`); if parsing
fails or yields no such field, fall back to status-derived text. -/
def specMessagePolicy (r : HttpResponse) : String :=
  match r.json with
  | none => "API error " ++ toString r.status ++ " " ++ r.statusText
  | some p =>
    match truthyStr p.message with
    | some m => m
    | none =>
      match truthyStr p.detail with
      | some d => d
      | none => "API error " ++ toString r.status ++ " " ++ r.statusText

/-- The error message `uploadAndSearch` throws on a non-2xx response:
`text || ` the status fallback, where `text` is the raw body. -/
def uploadAndSearchErrorMessage (r : HttpResponse) : String :=
  if r.bodyText = "" then "Search failed: " ++ toString r.status ++ " " ++ r.statusText
  else r.bodyText

/-! ### Search response data (`types` in `api.ts`) -/

structure Product where
  id : String
  title : String
  imageUrl : String
  price : Option ℚ
  badges : List String
  distanceScore : Option ℚ
  deriving DecidableEq

/-- Type `SearchResponse`; `items` is optional because the orchestrator defends
against a missing field with `res.items || []`. -/
structure SearchResponse where
  items : Option (List Product)
  total : ℕ
  tookMs : Option ℕ
  deriving DecidableEq

/-- Failure shapes of `uploadAndSearch`: an abort of the signal surfaces the
`AbortError` `DOMException` from `fetch` unchanged, while a non-2xx response
surfaces a `new Error(...)`; the two are distinguishable by shape. -/
inductive UploadFailure where
  | aborted
  | httpError (message : String)
  deriving DecidableEq

/-- Function `uploadAndSearch(files, filters, signal)` after `buildSearchForm`: the
first component is the settled promise, the second counts network requests
issued.  Per the fetch contract, a signal that is already aborted makes
`fetch` reject with an `AbortError` before any request is sent; the function
awaits `fetch` directly, so that rejection propagates unchanged.  `parsed`
is what `res.json()` yields on the success path. -/
def uploadAndSearch (signalAborted : Bool) (r : HttpResponse)
    (parsed : SearchResponse) : Except UploadFailure SearchResponse × ℕ :=
  if signalAborted then (.error .aborted, 0)
  else if r.ok then (.ok parsed, 1)
  else (.error (.httpError (uploadAndSearchErrorMessage r)), 1)

/-! ### Multipart form construction (`buildSearchForm` and `toApiFilters`)

JavaScript objects are modelled as association lists whose values include
`undefined`: a property written in an object literal is present (counted by
`Object.keys`) even when its value is `undefined`, while `JSON.stringify`
omits such properties. -/

inductive JsVal where
  | undef
  | str (s : String)
  | numPair (a b : ℚ)
  | strList (l : List String)
  | jsBool (b : Bool)
  | sortK (k : SortKey)
  deriving DecidableEq

abbrev JsObject := List (String × JsVal)

def jsKeys (o : JsObject) : List String := o.map Prod.fst

def sortKeyStr : SortKey → String
  | .relevance => "relevance"
  | .price_asc => "price_asc"
  | .price_desc => "price_desc"
  | .newest => "newest"

def quoteJson (s : String) : String := "\"" ++ s ++ "\""

/-- Number rendering for the JSON encoding; the exact decimal notation is
irrelevant to every theorem below. -/
def ratJson (q : ℚ) : String :=
  if q.den = 1 then toString q.num else toString q.num ++ "/" ++ toString q.den

def jsonValEncode : JsVal → Option String
  | .undef => none
  | .str s => some (quoteJson s)
  | .numPair a b => some ("[" ++ ratJson a ++ "," ++ ratJson b ++ "]")
  | .strList l => some ("[" ++ String.intercalate "," (l.map quoteJson) ++ "]")
  | .jsBool b => some (cond b "true" "false")
  | .sortK k => some (quoteJson (sortKeyStr k))

/-- Function `JSON.stringify` on a modelled object: properties with `undefined`
values are omitted. -/
def jsonStringify (o : JsObject) : String :=
  "\x7b" ++
    String.intercalate ","
      (o.filterMap fun kv => (jsonValEncode kv.2).map fun v => quoteJson kv.1 ++ ":" ++ v) ++
  "\x7d"

/-- Helper `toApiFilters` of `App.tsx`: an object literal with all seven
properties; `query` uses `f.query || undefined` (empty string is falsy) and
`category` uses `f.category ?? undefined`. -/
def toApiFilters (f : FilterState) : JsObject :=
  [("query", if f.query = "" then .undef else .str f.query),
   ("category", match f.category with | some c => .str c | none => .undef),
   ("price", .numPair f.price.1 f.price.2),
   ("colors", .strList f.colors),
   ("inStock", .jsBool f.inStock),
   ("detectedTags", .strList f.detectedTags),
   ("sort", .sortK f.sort)]

structure JsFile where
  name : String
  deriving DecidableEq

inductive FormPart where
  | filePart (fieldName : String) (file : JsFile) (filename : String)
  | textPart (fieldName : String) (value : String)
  deriving DecidableEq

def FormPart.fieldName : FormPart → String
  | .filePart n _ _ => n
  | .textPart n _ => n

/-- One `form.append("files", f, f.name || image_i.jpg)` call. -/
def fileSlot (i : ℕ) (f : JsFile) : FormPart :=
  .filePart "files" f (if f.name = "" then "image_" ++ toString i ++ ".jpg" else f.name)

/-- Function `buildSearchForm(files, filters)`: every file appended under the
repeated field name `files` in list order, then the `filters` field exactly
when `filters && Object.keys(filters).length > 0`. -/
def buildSearchForm (files : List JsFile) (filters : Option JsObject) : List FormPart :=
  (files.enum.map fun p => fileSlot p.1 p.2) ++
    (match filters with
     | some o => if 0 < (jsKeys o).length then [.textPart "filters" (jsonStringify o)] else []
     | none => [])

/-! ### `getProduct` path construction -/

/-- The characters `encodeURIComponent` leaves unescaped. -/
def uriUnreserved (c : Char) : Bool :=
  c.isAlphanum ||
    ['-', '_', '.', '!', '~', '*', Char.ofNat 39, '(', ')'].contains c

/-- UTF-8 bytes of a scalar value. -/
def utf8Bytes (c : Char) : List ℕ :=
  let n := c.toNat
  if n < 128 then [n]
  else if n < 2048 then [192 + n / 64, 128 + n % 64]
  else if n < 65536 then [224 + n / 4096, 128 + n / 64 % 64, 128 + n % 64]
  else [240 + n / 262144, 128 + n / 4096 % 64, 128 + n / 64 % 64, 128 + n % 64]

/-- Uppercase hexadecimal digit (argument below 16). -/
def hexDigit (k : ℕ) : Char :=
  if k < 10 then Char.ofNat (48 + k) else Char.ofNat (55 + k)

/-- Percent-escape of one byte; the inner `% 16` is a no-op for the byte
values `utf8Bytes` produces. -/
def percentByte (b : ℕ) : List Char :=
  ['%', hexDigit (b / 16 % 16), hexDigit (b % 16)]

/-- Function `encodeURIComponent`: unreserved characters kept, every other character
percent-escaped bytewise. -/
def encodeURIComponent (s : String) : String :=
  ⟨(s.data.map fun c =>
      if uriUnreserved c then [c] else (utf8Bytes c).flatMap percentByte).flatten⟩

/-- The request path of `getProduct(id)`. -/
def getProductPath (id : String) : String :=
  "/products/" ++ encodeURIComponent id

/-! ## Root orchestrator model (`App.tsx`) -/

inductive ToastKind where
  | error
  | info
  | success
  deriving DecidableEq

structure Toast where
  id : String
  kind : ToastKind
  message : String
  deriving DecidableEq

/-- Helper `uid` of `App.tsx` (default first argument "id"); `token` stands for the outcome of
`Math.random().toString(36).slice(2, 8)`. -/
def uid (pre token : String) : String := pre ++ "_" ++ token

/-- The identifier `pushToast` generates. -/
def toastId (token : String) : String := uid "toast" token

structure OrchestratorState where
  results : List Product
  total : ℕ
  toasts : List Toast
  isSearching : Bool
  deriving DecidableEq

/-- The state change of one `pushToast(kind, message)` call (the paired
3200 ms removal timer is modelled by the timeline semantics below). -/
def pushToastState (st : OrchestratorState) (kind : ToastKind) (message : String)
    (token : String) : OrchestratorState :=
  { st with toasts := st.toasts ++ [{ id := toastId token, kind := kind, message := message }] }

/-- How the awaited `uploadAndSearch` promise settled, as seen by
`handleFiles`; `thrown ""` covers an error whose `message` is falsy. -/
inductive SearchOutcome where
  | resolved (r : SearchResponse)
  | thrown (message : String)

def noMatchesMsg : String := "No matches found. Try adjusting filters or another image."

/-- The tail of `handleFiles` after the search promise settles: the `try`
branch stores `res.items || []` and `res.total || 0` and pushes one info
toast when `!res.items?.length`; the `catch` branch pushes one error toast
with `err?.message || "Search failed"`; `finally` clears `isSearching`. -/
def handleFilesCompletion (st : OrchestratorState) (o : SearchOutcome)
    (token : String) : OrchestratorState :=
  match o with
  | .resolved r =>
    let st1 := { st with results := r.items.getD [], total := r.total }
    let st2 :=
      if (r.items.getD []).length = 0 then pushToastState st1 .info noMatchesMsg token
      else st1
    { st2 with isSearching := false }
  | .thrown msg =>
    let st1 := pushToastState st .error (if msg = "" then "Search failed" else msg) token
    { st1 with isSearching := false }

/-! ### Toast timeline

`pushToast` appends a toast and schedules
`setTimeout(() => setToasts(t => t.filter(x => x.id !== id)), 3200)`.
A run is a set of push events with timestamps; the toast list at time `T`
is obtained by processing, in timestamp order, every push and every fired
timer with timestamp `≤ T`. -/

structure PushEv where
  time : ℕ
  kind : ToastKind
  message : String
  token : String
  deriving DecidableEq

inductive TEv where
  | pushE (p : PushEv)
  | expireE (time : ℕ) (id : String)
  deriving DecidableEq

def evTime : TEv → ℕ
  | .pushE p => p.time
  | .expireE t _ => t

/-- Timestamp order on events. -/
def timeLE (a b : TEv) : Prop := evTime a ≤ evTime b

instance : DecidableRel timeLE := fun a b => inferInstanceAs (Decidable (evTime a ≤ evTime b))

instance : IsTotal TEv timeLE := ⟨fun a b => Nat.le_total (evTime a) (evTime b)⟩

instance : IsTrans TEv timeLE := ⟨fun _ _ _ => Nat.le_trans⟩

/-- All events of a run, in timestamp order: each push, and its removal
timer fired 3200 ms later. -/
def timeline (ps : List PushEv) : List TEv :=
  List.insertionSort timeLE
    (ps.map TEv.pushE ++ ps.map fun p => TEv.expireE (p.time + 3200) (toastId p.token))

/-- Effect of one event on the toast list: a push appends, a fired timer
filters out its identifier. -/
def stepToasts (st : List Toast) : TEv → List Toast
  | .pushE p => st ++ [{ id := toastId p.token, kind := p.kind, message := p.message }]
  | .expireE _ i => st.filter fun x => x.id != i

/-- The toast list held at time `T`. -/
def toastsAt (ps : List PushEv) (T : ℕ) : List Toast :=
  ((timeline ps).filter fun e => evTime e ≤ T).foldl stepToasts []

/-! ## Upload component model (`ImageUpload.tsx`)

Object URLs are numbered in creation order.  `handleFiles` creates one URL
per file and prepends them, capping the preview list at 6; the effect
`useEffect(() => () => previews.forEach(u => URL.revokeObjectURL(u)), [previews])`
registers a cleanup that revokes the whole snapshot it closed over, and
React runs the previously registered cleanup whenever `previews` changes and
once more on unmount. -/

structure UploadSim where
  previews : List ℕ
  nextUrl : ℕ
  cleanup : List ℕ
  revoked : List ℕ
  deriving DecidableEq

/-- State after mount: empty previews, cleanup registered over `[]`. -/
def initUpload : UploadSim :=
  { previews := [], nextUrl := 0, cleanup := [], revoked := [] }

/-- One `handleFiles` call with `k` files: no-op when `k = 0`
(`if (arr.length === 0) return`); otherwise create `k` URLs, prepend and cap
at 6, run the previously registered cleanup, register a new one. -/
def addBatch (s : UploadSim) (k : ℕ) : UploadSim :=
  if k = 0 then s
  else
    let urls := (List.range k).map fun j => s.nextUrl + j
    let pv := (urls ++ s.previews).take 6
    { previews := pv
      nextUrl := s.nextUrl + k
      revoked := s.revoked ++ s.cleanup
      cleanup := pv }

/-- Component teardown: the registered cleanup runs one final time. -/
def unmountUpload (s : UploadSim) : UploadSim :=
  { s with revoked := s.revoked ++ s.cleanup, cleanup := [] }

/-- A full component lifetime: a sequence of file batches, then unmount. -/
def runUpload (batches : List ℕ) : UploadSim :=
  unmountUpload (batches.foldl addBatch initUpload)

/-! ## Theorems -/

/-! ### C7: colour/tag toggles round-trip membership -/

/-- Double toggle restores membership, for every element. -/
theorem mem_toggleValue_toggleValue (l : List String) (v x : String) :
    x ∈ toggleValue (toggleValue l v) v ↔ x ∈ l := by
  by_cases hv : v ∈ l
  · have h1 : toggleValue l v = l.filter (fun y => y != v) := by
      simp [toggleValue, hv]
    have hvmem : v ∉ l.filter (fun y => y != v) := by
      simp [List.mem_filter]
    rw [h1, toggleValue, if_neg hvmem]
    simp only [List.mem_append, List.mem_filter, List.mem_singleton, bne_iff_ne, ne_eq]
    constructor
    · rintro (⟨hx, _⟩ | rfl)
      · exact hx
      · exact hv
    · intro hx
      by_cases hxv : x = v
      · exact Or.inr hxv
      · exact Or.inl ⟨hx, hxv⟩
  · have h1 : toggleValue l v = l ++ [v] := by
      simp [toggleValue, hv]
    have hvmem : v ∈ l ++ [v] := by simp
    rw [h1, toggleValue, if_pos hvmem, List.filter_append]
    have hl : l.filter (fun y => y != v) = l := by
      rw [List.filter_eq_self]
      intro a ha
      simp only [bne_iff_ne, ne_eq, decide_eq_true_eq]
      rintro rfl
      exact hv ha
    simp [hl]

/-- C7: for every filter state and every colour (or tag) value, toggling that
value twice returns the `colors` (or `detectedTags`) field to its original
membership: the first toggle removes the value if present or appends it if
absent, and the second inverts that, so membership round-trips. -/
theorem toggle_twice_roundtrip (s : FilterState) (hex t x : String) :
    (x ∈ (toggleColor (toggleColor s hex) hex).colors ↔ x ∈ s.colors) ∧
    (x ∈ (toggleTag (toggleTag s t) t).detectedTags ↔ x ∈ s.detectedTags) :=
  ⟨by simpa [toggleColor] using mem_toggleValue_toggleValue s.colors hex x,
   by simpa [toggleTag] using mem_toggleValue_toggleValue s.detectedTags t x⟩

/-! ### C2: price bounds — normalisation is display-only -/

/-- C2 counterexample: editing the minimum bound to 2000 from the default
state emits a filter object whose price interval has min 2000 and max 1000,
so the emitted bounds do not satisfy min ≤ max. -/
theorem emitted_price_not_normalized :
    (emittedFilters (applyPriceEdits DEFAULTS [PriceEdit.setMin 2000])).price.2
      < (emittedFilters (applyPriceEdits DEFAULTS [PriceEdit.setMin 2000])).price.1 := by
  show (1000 : ℚ) < 2000
  norm_num

/-- C2 amended: after any sequence of price-bound edits, the price interval
the panel displays is normalised so min ≤ max, while the emitted filter
object carries the raw state (whose bounds may be in either order). -/
theorem displayed_price_normalized (s : FilterState) (es : List PriceEdit) :
    (minMaxDisplay (applyPriceEdits s es)).1 ≤ (minMaxDisplay (applyPriceEdits s es)).2 ∧
    emittedFilters (applyPriceEdits s es) = applyPriceEdits s es :=
  ⟨min_le_max, rfl⟩

/-! ### C5: numeric coercion of price inputs -/

/-- C5: for every string typed into a price-bound number input, the value the
handler stores is its numeric coercion, never NaN; non-numeric input is
sanitised to `""` by the number input, which the handler coerces to zero. -/
theorem price_input_never_nan (typed : String) (s : FilterState) :
    (priceInputNumber (numberInputValue typed)).isSome = true ∧
    (parseFP typed = none → priceInputNumber (numberInputValue typed) = some 0) ∧
    (∀ q : ℚ, priceInputNumber (numberInputValue typed) = some q →
      (applyPriceEdit s (.setMin q)).price = (q, s.price.2) ∧
      (applyPriceEdit s (.setMax q)).price = (s.price.1, q)) := by
  refine ⟨?_, ?_, ?_⟩
  · cases h : parseFP typed with
    | none => simp [numberInputValue, h, priceInputNumber]
    | some v =>
      have hne : typed ≠ "" := by
        rintro rfl
        rw [show parseFP "" = none from rfl] at h
        cases h
      simp [numberInputValue, h, priceInputNumber, hne]
  · intro h
    simp [numberInputValue, h, priceInputNumber]
  · intro q _
    exact ⟨rfl, rfl⟩

/-- Witness for C5 at concrete inputs. -/
theorem price_input_never_nan_witness :
    (parseFP "abc" = none ∧ priceInputNumber (numberInputValue "abc") = some 0) ∧
    (priceInputNumber (numberInputValue "12.5")).isSome = true :=
  ⟨⟨by decide, (price_input_never_nan "abc" DEFAULTS).2.1 (by decide)⟩,
   (price_input_never_nan "12.5" DEFAULTS).1⟩

/-! ### C4: multipart body construction -/

/-- C4 counterexample: with every filter at its default — the state in which
no filter is set — `toApiFilters` still yields an object with seven own
properties, so the body `buildSearchForm` builds contains a `filters` field,
contradicting "when no filter is set, no filters field is present". -/
theorem filters_field_present_at_defaults :
    (buildSearchForm [⟨"a.jpg"⟩] (some (toApiFilters DEFAULTS))).countP
      (fun part => part.fieldName == "filters") = 1 := by
  decide

/-- C4 amended: each file is attached under the repeated field name `files`
in list order; a single JSON-encoded `filters` field is present iff a filters
object with at least one own property is supplied — and `toApiFilters` always
produces an object with seven own properties (properties with `undefined`
values are still counted by `Object.keys`), so app searches always carry it. -/
theorem buildSearchForm_shape (files : List JsFile) (fo : Option JsObject) (f : FilterState) :
    (buildSearchForm files fo).filter (fun part => part.fieldName == "files")
        = files.enum.map (fun p => fileSlot p.1 p.2) ∧
    (buildSearchForm files fo).countP (fun part => part.fieldName == "filters")
        = (match fo with
           | some o => if 0 < (jsKeys o).length then 1 else 0
           | none => 0) ∧
    (jsKeys (toApiFilters f)).length = 7 := by
  have hfile : ∀ part ∈ files.enum.map (fun p => fileSlot p.1 p.2),
      part.fieldName = "files" := by
    intro part hpart
    rcases List.mem_map.mp hpart with ⟨⟨i, g⟩, _, rfl⟩
    rfl
  refine ⟨?_, ?_, rfl⟩
  · rw [buildSearchForm.eq_def, List.filter_append]
    have h1 : (files.enum.map fun p => fileSlot p.1 p.2).filter
        (fun part => part.fieldName == "files")
        = files.enum.map fun p => fileSlot p.1 p.2 := by
      rw [List.filter_eq_self]
      intro a ha
      simp [hfile a ha]
    have h2 : (match fo with
        | some o => if 0 < (jsKeys o).length
            then [FormPart.textPart "filters" (jsonStringify o)] else []
        | none => ([] : List FormPart)).filter (fun (part : FormPart) => part.fieldName == "files") = [] := by
      match fo with
      | none => rfl
      | some o =>
        by_cases h : 0 < (jsKeys o).length
        · simp [h, FormPart.fieldName]
        · simp [h]
    rw [h1, h2, List.append_nil]
  · rw [buildSearchForm.eq_def, List.countP_append]
    have h1 : (files.enum.map fun p => fileSlot p.1 p.2).countP
        (fun part => part.fieldName == "filters") = 0 := by
      rw [List.countP_eq_zero]
      intro a ha
      simp [hfile a ha]
    have h2 : (match fo with
        | some o => if 0 < (jsKeys o).length
            then [FormPart.textPart "filters" (jsonStringify o)] else []
        | none => ([] : List FormPart)).countP (fun (part : FormPart) => part.fieldName == "filters")
        = (match fo with
           | some o => if 0 < (jsKeys o).length then 1 else 0
           | none => 0) := by
      match fo with
      | none => rfl
      | some o =>
        by_cases h : 0 < (jsKeys o).length
        · simp [h, FormPart.fieldName, List.countP_cons]
        · simp [h]
    rw [h1, h2, Nat.zero_add]

/-! ### C6: search completion pushes exactly one toast -/

/-- C6: a search resolving with zero items empties the results and pushes
exactly one informational toast; a search that throws pushes exactly one
error toast carrying the failure's message and leaves the previously held
results and total unchanged. -/
theorem search_completion_toasts (st : OrchestratorState) (token : String) :
    (∀ r : SearchResponse, r.items.getD [] = [] →
      (handleFilesCompletion st (.resolved r) token).results = [] ∧
      (handleFilesCompletion st (.resolved r) token).toasts
        = st.toasts ++ [{ id := toastId token, kind := .info, message := noMatchesMsg }]) ∧
    (∀ msg : String, msg ≠ "" →
      (handleFilesCompletion st (.thrown msg) token).results = st.results ∧
      (handleFilesCompletion st (.thrown msg) token).total = st.total ∧
      (handleFilesCompletion st (.thrown msg) token).toasts
        = st.toasts ++ [{ id := toastId token, kind := .error, message := msg }]) := by
  constructor
  · intro r hr
    have hlen : (r.items.getD []).length = 0 := by rw [hr]; rfl
    constructor
    · simp [handleFilesCompletion, hlen, pushToastState, hr]
    · simp [handleFilesCompletion, hlen, pushToastState]
  · intro msg hmsg
    refine ⟨rfl, rfl, ?_⟩
    simp [handleFilesCompletion, pushToastState, hmsg]

/-- Witness for C6 at concrete inputs: a zero-item response and a thrown
error with message "boom", against a state holding one prior result. -/
theorem search_completion_toasts_witness :
    ((⟨some [], 0, none⟩ : SearchResponse).items.getD [] = [] ∧
      (handleFilesCompletion ⟨[⟨"p1", "t", "u", none, [], none⟩], 1, [], true⟩
          (.resolved ⟨some [], 0, none⟩) "ab").results = [] ∧
      (handleFilesCompletion ⟨[⟨"p1", "t", "u", none, [], none⟩], 1, [], true⟩
          (.resolved ⟨some [], 0, none⟩) "ab").toasts
        = [] ++ [{ id := toastId "ab", kind := .info, message := noMatchesMsg }]) ∧
    (("boom" : String) ≠ "" ∧
      (handleFilesCompletion ⟨[⟨"p1", "t", "u", none, [], none⟩], 1, [], true⟩
          (.thrown "boom") "cd").results = [⟨"p1", "t", "u", none, [], none⟩] ∧
      (handleFilesCompletion ⟨[⟨"p1", "t", "u", none, [], none⟩], 1, [], true⟩
          (.thrown "boom") "cd").total = 1 ∧
      (handleFilesCompletion ⟨[⟨"p1", "t", "u", none, [], none⟩], 1, [], true⟩
          (.thrown "boom") "cd").toasts
        = [] ++ [{ id := toastId "cd", kind := .error, message := "boom" }]) :=
  ⟨⟨by decide,
    (search_completion_toasts ⟨[⟨"p1", "t", "u", none, [], none⟩], 1, [], true⟩ "ab").1
      ⟨some [], 0, none⟩ (by decide)⟩,
   ⟨by decide,
    (search_completion_toasts ⟨[⟨"p1", "t", "u", none, [], none⟩], 1, [], true⟩ "cd").2
      "boom" (by decide)⟩⟩

/-! ### C8: already-aborted signal -/

/-- C8: calling `uploadAndSearch` with an already-aborted signal issues no
network request (second component 0) and rejects with the abort shape, which
is distinguishable from the `Error` produced for a non-2xx response. -/
theorem uploadAndSearch_aborted (r : HttpResponse) (parsed : SearchResponse) :
    uploadAndSearch true r parsed = (.error .aborted, 0) ∧
    ∀ m : String, (UploadFailure.aborted : UploadFailure) ≠ .httpError m :=
  ⟨rfl, fun _ h => UploadFailure.noConfusion h⟩

/-! ### C3: preview URL lifecycle (code bug) -/

/-- C3, evaluated at the failing input: two single-file additions followed by
teardown.  After the second addition, URL 0 is still in the preview list yet
has already been revoked (the effect cleanup revoked the whole previous
snapshot), and over the whole lifetime URL 0 is revoked twice — the revocation
log is [0, 1, 0] — contradicting "each preview URL is released exactly once,
and never while it is still held". -/
theorem preview_url_double_revoked :
    0 ∈ ([1, 1].foldl addBatch initUpload).previews ∧
    0 ∈ ([1, 1].foldl addBatch initUpload).revoked ∧
    (runUpload [1, 1]).revoked = [0, 1, 0] ∧
    (runUpload [1, 1]).revoked.count 0 = 2 := by
  decide

/-! ### C10: getProduct percent-encodes the identifier -/

/-- Every character of an encoded identifier is an unreserved character, a
percent sign, or a hexadecimal digit. -/
theorem mem_encodeURIComponent (id : String) (c : Char)
    (hc : c ∈ (encodeURIComponent id).data) :
    uriUnreserved c = true ∨ c = '%' ∨ ∃ k, k < 16 ∧ c = hexDigit k := by
  have hc' : c ∈ (id.data.map fun d =>
      if uriUnreserved d then [d] else (utf8Bytes d).flatMap percentByte).flatten := hc
  rcases List.mem_flatten.mp hc' with ⟨chunk, hchunk, hcchunk⟩
  rcases List.mem_map.mp hchunk with ⟨d, _, rfl⟩
  by_cases hd : uriUnreserved d
  · rw [if_pos hd] at hcchunk
    rcases List.mem_singleton.mp hcchunk with rfl
    exact Or.inl hd
  · rw [if_neg hd] at hcchunk
    rcases List.mem_flatMap.mp hcchunk with ⟨b, _, hcb⟩
    simp only [percentByte, List.mem_cons, List.not_mem_nil, or_false] at hcb
    rcases hcb with h | h | h
    · exact Or.inr (Or.inl h)
    · exact Or.inr (Or.inr ⟨b / 16 % 16, Nat.mod_lt _ (by norm_num), h⟩)
    · exact Or.inr (Or.inr ⟨b % 16, Nat.mod_lt _ (by norm_num), h⟩)

/-- C10: for every product identifier, `getProduct` requests the path
`/products/` followed by the percent-encoded identifier, and the encoded
identifier contains none of the route-altering characters `/`, `?`, `#`,
so the identifier always stays inside a single path segment. -/
theorem getProduct_single_segment (id : String) (c : Char)
    (hc : c ∈ (encodeURIComponent id).data) :
    getProductPath id = "/products/" ++ encodeURIComponent id ∧
    c ≠ '/' ∧ c ≠ '?' ∧ c ≠ '#' := by
  refine ⟨rfl, ?_⟩
  have hex : ∀ k, k < 16 → hexDigit k ≠ '/' ∧ hexDigit k ≠ '?' ∧ hexDigit k ≠ '#' := by
    decide
  rcases mem_encodeURIComponent id c hc with h | h | ⟨k, hk, h⟩
  · refine ⟨?_, ?_, ?_⟩ <;> rintro rfl <;> exact absurd h (by decide)
  · subst h
    exact ⟨by decide, by decide, by decide⟩
  · subst h
    exact hex k hk

/-- Witness for C10: the slash in "a/b" is percent-encoded, and the percent
sign itself is not a route-altering character. -/
theorem getProduct_single_segment_witness :
    ('%' ∈ (encodeURIComponent "a/b").data) ∧
    (getProductPath "a/b" = "/products/" ++ encodeURIComponent "a/b" ∧
      '%' ≠ '/' ∧ '%' ≠ '?' ∧ '%' ≠ '#') :=
  ⟨by decide, getProduct_single_segment "a/b" '%' (by decide)⟩

/-! ### C1: error-message policy is not uniform across calls -/

/-- The message `apiRequest` constructs coincides with the spec's JSON
message-extraction policy. -/
theorem apiErrorMessage_eq_spec (r : HttpResponse) :
    apiErrorMessage r = specMessagePolicy r := by
  rw [apiErrorMessage, specMessagePolicy]
  cases r.json with
  | none => rfl
  | some p => rfl

/-- C1 counterexample: on a 500 response whose body is the JSON object with
message field "boom", the JSON-extraction policy yields "boom", but
`uploadAndSearch` throws the raw body text instead — the policy does not
hold for `uploadAndSearch`. -/
theorem uploadAndSearch_ignores_json_message :
    uploadAndSearch false
        ⟨false, 500, "Internal Server Error",
          "\x7b\"message\":\"boom\"\x7d", some ⟨some "boom", none⟩⟩ ⟨none, 0, none⟩
      = (.error (.httpError "\x7b\"message\":\"boom\"\x7d"), 1) ∧
    specMessagePolicy
        ⟨false, 500, "Internal Server Error",
          "\x7b\"message\":\"boom\"\x7d", some ⟨some "boom", none⟩⟩ = "boom" ∧
    ("\x7b\"message\":\"boom\"\x7d" : String) ≠ "boom" := by
  refine ⟨?_, by decide, by decide⟩
  rfl

/-- C1 amended: the JSON message/detail extraction policy with HTTP-status
fallback holds for every call routed through `apiRequest` (health,
categories, tags, precompute, getProduct); `uploadAndSearch` instead throws
the raw response body text, falling back to status-derived text only when
the body is empty or unreadable. -/
theorem error_policy_by_call (r : HttpResponse) (h : r.ok = false) :
    apiRequest r = .error (specMessagePolicy r) ∧
    (r.bodyText ≠ "" → ∀ parsed : SearchResponse,
      uploadAndSearch false r parsed = (.error (.httpError r.bodyText), 1)) ∧
    (r.bodyText = "" → ∀ parsed : SearchResponse,
      uploadAndSearch false r parsed
        = (.error (.httpError
            ("Search failed: " ++ toString r.status ++ " " ++ r.statusText)), 1)) := by
  refine ⟨?_, ?_, ?_⟩
  · rw [apiRequest, h, ← apiErrorMessage_eq_spec r]
    rfl
  · intro hbody parsed
    rw [uploadAndSearch, if_neg (by simp), if_neg (by simp [h]),
      uploadAndSearchErrorMessage, if_neg hbody]
  · intro hbody parsed
    rw [uploadAndSearch, if_neg (by simp), if_neg (by simp [h]),
      uploadAndSearchErrorMessage, if_pos hbody]

/-! ### C9: toast identifiers and expiry -/

/-- Identifiers of the push events of an event list, in order. -/
def pushIds (evs : List TEv) : List String :=
  evs.filterMap fun e =>
    match e with
    | .pushE p => some (toastId p.token)
    | .expireE _ _ => none

/-- Distinct random tokens yield distinct toast identifiers. -/
theorem toastId_injective : Function.Injective toastId := by
  intro a b h
  have hd : ("toast_" ++ a).data = ("toast_" ++ b).data := congrArg String.data h
  rw [String.data_append, String.data_append] at hd
  have hdata : a.data = b.data := List.append_cancel_left hd
  cases a
  cases b
  cases hdata
  rfl

/-- If no pending push event carries identifier `i` and no held toast does,
then no toast with identifier `i` ever enters the list. -/
theorem foldl_stepToasts_no_id (evs : List TEv) (st : List Toast) (i : String)
    (hst : ∀ t ∈ st, t.id ≠ i)
    (hevs : ∀ q : PushEv, TEv.pushE q ∈ evs → toastId q.token ≠ i) :
    ∀ t ∈ evs.foldl stepToasts st, t.id ≠ i := by
  induction evs generalizing st with
  | nil => simpa using hst
  | cons e rest ih =>
    rw [List.foldl_cons]
    cases e with
    | pushE q =>
      refine ih _ ?_ (fun q' hq' => hevs q' (List.mem_cons_of_mem _ hq'))
      intro t ht
      have ht' : t ∈ st ++
          [({ id := toastId q.token, kind := q.kind, message := q.message } : Toast)] := ht
      rcases List.mem_append.mp ht' with hmem | hmem
      · exact hst t hmem
      · rw [List.mem_singleton.mp hmem]
        exact hevs q (List.mem_cons_self _ _)
    | expireE τ j =>
      refine ih _ ?_ (fun q' hq' => hevs q' (List.mem_cons_of_mem _ hq'))
      intro t ht
      exact hst t (List.mem_of_mem_filter ht)

/-- Once the removal timer for identifier `i` has fired, no toast with that
identifier is held, provided no later push re-creates the identifier. -/
theorem foldl_stepToasts_expire_kills (l r : List TEv) (τ : ℕ) (i : String)
    (st : List Toast)
    (hr : ∀ q : PushEv, TEv.pushE q ∈ r → toastId q.token ≠ i) :
    ∀ t ∈ (l ++ TEv.expireE τ i :: r).foldl stepToasts st, t.id ≠ i := by
  rw [List.foldl_append, List.foldl_cons]
  refine foldl_stepToasts_no_id r _ i ?_ hr
  intro t ht
  have ht' : t ∈ (l.foldl stepToasts st).filter (fun x => x.id != i) := ht
  have := List.of_mem_filter ht'
  simpa [bne_iff_ne] using this

/-- Processing events whose push identifiers, together with the held
identifiers, are pairwise distinct keeps the held identifiers pairwise
distinct (and produces only identifiers from that pool). -/
theorem foldl_stepToasts_nodup (evs : List TEv) (st : List Toast)
    (h : ((st.map Toast.id) ++ pushIds evs).Nodup) :
    ((evs.foldl stepToasts st).map Toast.id).Nodup ∧
      ∀ x ∈ (evs.foldl stepToasts st).map Toast.id,
        x ∈ st.map Toast.id ++ pushIds evs := by
  induction evs generalizing st with
  | nil =>
    rw [List.foldl_nil]
    refine ⟨by simpa [pushIds] using h, ?_⟩
    intro x hx
    simp only [pushIds, List.filterMap_nil, List.append_nil]
    exact hx
  | cons e rest ih =>
    rw [List.foldl_cons]
    cases e with
    | pushE q =>
      have hps : pushIds (TEv.pushE q :: rest) = toastId q.token :: pushIds rest := by
        simp [pushIds, List.filterMap_cons]
      rw [hps] at h
      have hst' : (stepToasts st (.pushE q)).map Toast.id
          = st.map Toast.id ++ [toastId q.token] := by
        simp [stepToasts]
      have h' : ((stepToasts st (.pushE q)).map Toast.id ++ pushIds rest).Nodup := by
        rw [hst', List.append_assoc, List.singleton_append]
        exact h
      rcases ih _ h' with ⟨h1, h2⟩
      refine ⟨h1, ?_⟩
      intro x hx
      have hmem := h2 x hx
      rw [hst', List.append_assoc, List.singleton_append] at hmem
      rw [hps]
      exact hmem
    | expireE τ j =>
      have hps : pushIds (TEv.expireE τ j :: rest) = pushIds rest := by
        simp [pushIds, List.filterMap_cons]
      rw [hps] at h
      have hsub : ((stepToasts st (.expireE τ j)).map Toast.id).Sublist
          (st.map Toast.id) :=
        (List.filter_sublist st).map Toast.id
      have h' : ((stepToasts st (.expireE τ j)).map Toast.id ++ pushIds rest).Nodup :=
        h.sublist (hsub.append_right _)
      rcases ih _ h' with ⟨h1, h2⟩
      refine ⟨h1, ?_⟩
      intro x hx
      have hmem := h2 x hx
      rw [hps]
      rcases List.mem_append.mp hmem with hm | hm
      · exact List.mem_append.mpr (Or.inl (hsub.subset hm))
      · exact List.mem_append.mpr (Or.inr hm)

theorem pushIds_append (a b : List TEv) : pushIds (a ++ b) = pushIds a ++ pushIds b :=
  List.filterMap_append a b _

theorem pushIds_map_pushE (qs : List PushEv) :
    pushIds (qs.map TEv.pushE) = qs.map fun p => toastId p.token := by
  induction qs with
  | nil => rfl
  | cons a l ih =>
    show toastId a.token :: pushIds (l.map TEv.pushE)
        = toastId a.token :: l.map fun p => toastId p.token
    rw [ih]

theorem pushIds_map_expireE (qs : List PushEv) :
    pushIds (qs.map fun p => TEv.expireE (p.time + 3200) (toastId p.token)) = [] := by
  induction qs with
  | nil => rfl
  | cons a l ih =>
    show pushIds (l.map fun p => TEv.expireE (p.time + 3200) (toastId p.token)) = []
    exact ih

/-- With pairwise-distinct random tokens, the held toasts have
pairwise-distinct identifiers at every time. -/
theorem toastsAt_ids_nodup (ps : List PushEv) (T : ℕ)
    (h : (ps.map PushEv.token).Nodup) :
    ((toastsAt ps T).map Toast.id).Nodup := by
  have base : pushIds (ps.map TEv.pushE
        ++ ps.map fun p => TEv.expireE (p.time + 3200) (toastId p.token))
      = ps.map fun p => toastId p.token := by
    rw [pushIds_append, pushIds_map_pushE, pushIds_map_expireE, List.append_nil]
  have hperm : (pushIds (timeline ps)).Perm (ps.map fun p => toastId p.token) := by
    rw [← base]
    exact (List.perm_insertionSort timeLE _).filterMap _
  have hnodup : (pushIds (timeline ps)).Nodup := by
    rw [hperm.nodup_iff]
    have hmapped : ((ps.map PushEv.token).map toastId).Nodup := h.map toastId_injective
    simpa [List.map_map, Function.comp] using hmapped
  have hsub : (pushIds ((timeline ps).filter fun e => evTime e ≤ T)).Sublist
      (pushIds (timeline ps)) :=
    (List.filter_sublist _).filterMap _
  have hnd2 : (pushIds ((timeline ps).filter fun e => evTime e ≤ T)).Nodup :=
    hnodup.sublist hsub
  have hmain := (foldl_stepToasts_nodup ((timeline ps).filter fun e => evTime e ≤ T) []
    (by simpa using hnd2)).1
  simpa [toastsAt] using hmain

/-- With pairwise-distinct random tokens, a toast pushed at time `τ` is gone
from the list at every time from `τ + 3200` on. -/
theorem toastsAt_expired (ps : List PushEv) (T : ℕ) (p : PushEv)
    (h : (ps.map PushEv.token).Nodup) (hp : p ∈ ps) (hT : p.time + 3200 ≤ T) :
    ∀ t ∈ toastsAt ps T, t.id ≠ toastId p.token := by
  have hmemtl : TEv.expireE (p.time + 3200) (toastId p.token) ∈ timeline ps := by
    rw [timeline, List.mem_insertionSort]
    exact List.mem_append.mpr (Or.inr (List.mem_map.mpr ⟨p, hp, rfl⟩))
  have hmemf : TEv.expireE (p.time + 3200) (toastId p.token)
      ∈ (timeline ps).filter fun e => evTime e ≤ T := by
    rw [List.mem_filter]
    refine ⟨hmemtl, ?_⟩
    simp only [evTime, decide_eq_true_eq]
    exact hT
  rcases List.append_of_mem hmemf with ⟨l, r, hsplit⟩
  have hsorted : (((timeline ps).filter fun e => evTime e ≤ T)).Pairwise timeLE :=
    (List.sorted_insertionSort timeLE _).filter _
  have hafter : ∀ b ∈ r, timeLE (TEv.expireE (p.time + 3200) (toastId p.token)) b := by
    rw [hsplit] at hsorted
    have h2 := (List.pairwise_append.mp hsorted).2.1
    exact (List.pairwise_cons.mp h2).1
  have hnopush : ∀ q : PushEv, TEv.pushE q ∈ r → toastId q.token ≠ toastId p.token := by
    intro q hq hiq
    have hq_f : TEv.pushE q ∈ (timeline ps).filter fun e => evTime e ≤ T := by
      rw [hsplit]
      exact List.mem_append.mpr (Or.inr (List.mem_cons_of_mem _ hq))
    have hq_tl : TEv.pushE q ∈ timeline ps := List.mem_of_mem_filter hq_f
    have hq_ps : q ∈ ps := by
      rw [timeline, List.mem_insertionSort] at hq_tl
      rcases List.mem_append.mp hq_tl with hA | hB
      · rcases List.mem_map.mp hA with ⟨q', hq', he⟩
        injection he with he'
        rw [← he']
        exact hq'
      · rcases List.mem_map.mp hB with ⟨q', _, he⟩
        exact TEv.noConfusion he
    have hqtok : q.token = p.token := toastId_injective hiq
    have hqp : q = p := List.inj_on_of_nodup_map h hq_ps hp hqtok
    have htime := hafter _ hq
    rw [hqp] at htime
    have hcontra : p.time + 3200 ≤ p.time := htime
    omega
  rw [toastsAt, hsplit]
  exact foldl_stepToasts_expire_kills l r _ _ [] hnopush

/-- C9 amended: provided the randomly generated tokens of a run are pairwise
distinct, no two simultaneously held toasts share an identifier, and every
toast has left the list once 3200 ms have elapsed since its push (the claim
as stated fails when the random generator yields colliding tokens, see the
counterexample). -/
theorem toast_ids_unique_and_expire (ps : List PushEv) (T : ℕ)
    (h : (ps.map PushEv.token).Nodup) :
    ((toastsAt ps T).map Toast.id).Nodup ∧
    ∀ p ∈ ps, p.time + 3200 ≤ T → ∀ t ∈ toastsAt ps T, t.id ≠ toastId p.token :=
  ⟨toastsAt_ids_nodup ps T h, fun p hp hT => toastsAt_expired ps T p h hp hT⟩

/-- Witness for C9: two pushes with distinct tokens, observed exactly when
the first push's timer fires. -/
theorem toast_ids_unique_and_expire_witness :
    (([⟨0, ToastKind.info, "a", "ab"⟩, ⟨10, ToastKind.error, "b", "cd"⟩]
        : List PushEv).map PushEv.token).Nodup ∧
    (((toastsAt [⟨0, ToastKind.info, "a", "ab"⟩, ⟨10, ToastKind.error, "b", "cd"⟩]
        3200).map Toast.id).Nodup ∧
      ∀ p ∈ ([⟨0, ToastKind.info, "a", "ab"⟩, ⟨10, ToastKind.error, "b", "cd"⟩]
          : List PushEv),
        p.time + 3200 ≤ 3200 →
          ∀ t ∈ toastsAt [⟨0, ToastKind.info, "a", "ab"⟩,
              ⟨10, ToastKind.error, "b", "cd"⟩] 3200,
            t.id ≠ toastId p.token) :=
  ⟨by decide, toast_ids_unique_and_expire _ 3200 (by decide)⟩

/-- C9 counterexample: when the random generator yields the same token for
two pushes inside the 3200 ms window, both toasts are simultaneously held
with the same identifier — the claimed uniqueness fails. -/
theorem toast_id_collision :
    (toastsAt [⟨0, ToastKind.info, "a", "zz"⟩, ⟨10, ToastKind.info, "b", "zz"⟩]
        100).map Toast.id = ["toast_zz", "toast_zz"] ∧
    ¬ (((toastsAt [⟨0, ToastKind.info, "a", "zz"⟩, ⟨10, ToastKind.info, "b", "zz"⟩]
        100).map Toast.id).Nodup) := by
  refine ⟨by decide, by decide⟩

/-- Witness for C1 at a concrete non-2xx response. -/
theorem error_policy_by_call_witness :
    ((⟨false, 404, "Not Found", "gone", some ⟨none, some "missing"⟩⟩ : HttpResponse).ok
        = false) ∧
    (apiRequest ⟨false, 404, "Not Found", "gone", some ⟨none, some "missing"⟩⟩
        = .error (specMessagePolicy
            ⟨false, 404, "Not Found", "gone", some ⟨none, some "missing"⟩⟩) ∧
      (("gone" : String) ≠ "" → ∀ parsed : SearchResponse,
        uploadAndSearch false ⟨false, 404, "Not Found", "gone", some ⟨none, some "missing"⟩⟩
            parsed = (.error (.httpError "gone"), 1)) ∧
      (("gone" : String) = "" → ∀ parsed : SearchResponse,
        uploadAndSearch false ⟨false, 404, "Not Found", "gone", some ⟨none, some "missing"⟩⟩
            parsed
          = (.error (.httpError ("Search failed: " ++ toString (404 : ℕ) ++ " " ++ "Not Found")), 1))) :=
  ⟨by decide, error_policy_by_call ⟨false, 404, "Not Found", "gone", some ⟨none, some "missing"⟩⟩ (by decide)⟩

end VPM
